import Mathlib

/-!
Shallow embedding of the SuperPoint ONNX bundler pipeline (main.js):
the luminance normalizer `rgb2gray`, the tensor assembler
`defineTensorInput`, the heatmap decoder `drawKeypoints`, and the
orchestrator `main`.  Scores and durations are modelled as rationals;
the JS `Float32Array` full-size heatmap is modelled as a `List ℚ`,
whose `List.set` drops out-of-range writes exactly as a typed-array
store does.
-/

/-- `cellSize` constant of `drawKeypoints`: the 8×8 sub-pixel grid per cell. -/
def cellSize : ℕ := 8

/-- Hard-coded confidence threshold inside `drawKeypoints`: `0.015`. -/
def confidenceThreshold : ℚ := mkRat 15 1000

/-- A decoded keypoint: integer pixel coordinate plus confidence score. -/
structure Keypoint where
  x : ℕ
  y : ℕ
  confidence : ℚ
deriving DecidableEq, Repr

/-- Flat index into the `[1, C, H, W]` heatmap data:
`(c * heatmapHeight * heatmapWidth) + (y * heatmapWidth) + x`. -/
def heatmapIndex (H W c y x : ℕ) : ℕ :=
  c * H * W + y * W + x

/-- Full-resolution index written by the depth-to-space loop:
`finalY * image.width + finalX` with `finalX = x*cellSize + c % cellSize`
and `finalY = y*cellSize + c / cellSize`. -/
def fullMapIndex (imgW c y x : ℕ) : ℕ :=
  (y * cellSize + c / cellSize) * imgW + (x * cellSize + c % cellSize)

/-- The `(c, (y, x))` triples visited by the three nested loops of
`drawKeypoints`, in source order: `c` outermost over the first
`channelCount - 1` channels, then `y`, then `x`. -/
def loopTriples (Cm1 H W : ℕ) : List (ℕ × ℕ × ℕ) :=
  (List.range Cm1).flatMap fun c =>
    (List.range H).flatMap fun y =>
      (List.range W).map fun x => (c, y, x)

/-- The sequence of (target index, score) stores performed on
`fullSizeHeatmap` by the depth-to-space loop. -/
def heatmapWrites (C H W imgW : ℕ) (data : List ℚ) : List (ℕ × ℚ) :=
  (loopTriples (C - 1) H W).map fun t =>
    (fullMapIndex imgW t.1 t.2.1 t.2.2,
     data.getD (heatmapIndex H W t.1 t.2.1 t.2.2) 0)

/-- Replay a list of stores on a buffer; `List.set` ignores an
out-of-range index, matching `Float32Array` element stores. -/
def applyWrites (ws : List (ℕ × ℚ)) (init : List ℚ) : List ℚ :=
  ws.foldl (fun acc w => acc.set w.1 w.2) init

/-- The `fullSizeHeatmap` buffer of `drawKeypoints`: a zero-initialised
`image.width * image.height` array after the depth-to-space stores. -/
def buildFullHeatmap (C H W : ℕ) (data : List ℚ) (imgW imgH : ℕ) : List ℚ :=
  applyWrites (heatmapWrites C H W imgW data) (List.replicate (imgW * imgH) 0)

/-- The keypoints drawn by the final loop of `drawKeypoints`, in draw
order: every index `i` of the full-size heatmap whose score strictly
exceeds the threshold yields a point at `(i % width, i / width)`. -/
def drawKeypoints (C H W : ℕ) (data : List ℚ) (imgW imgH : ℕ) : List Keypoint :=
  let full := buildFullHeatmap C H W data imgW imgH
  (List.range (imgW * imgH)).filterMap fun i =>
    if confidenceThreshold < full.getD i 0 then
      some ⟨i % imgW, i / imgW, full.getD i 0⟩
    else
      none

/-- An RGBA image: `data` holds 4 interleaved 8-bit channels per pixel,
row-major, `data.length = 4 * width * height` for a well-formed image. -/
structure ImageData where
  width : ℕ
  height : ℕ
  data : List ℕ
deriving DecidableEq, Repr

/-- `rgb2gray`: per pixel `p`, read `R,G,B` at flat positions
`4p, 4p+1, 4p+2` (alpha at `4p+3` is skipped), compute
`0.299*R + 0.587*G + 0.114*B` and divide by `255`. -/
def rgb2gray (img : ImageData) : List ℚ :=
  (List.range (img.width * img.height)).map fun p =>
    (0.299 * (img.data.getD (4 * p) 0 : ℚ) +
     0.587 * (img.data.getD (4 * p + 1) 0 : ℚ) +
     0.114 * (img.data.getD (4 * p + 2) 0 : ℚ)) / 255

/-- A tensor descriptor: element type tag, dims, and backing data. -/
structure TensorDescriptor where
  dtype : String
  dims : List ℕ
  data : List ℚ
deriving DecidableEq, Repr

/-- Modelled from the spec: the external `ort.Tensor` constructor
(onnxruntime-web, not part of this repository) validates that the data
length equals the product of the dims and raises otherwise; the spec
names this failure `ShapeMismatchError`. -/
def ortTensorNew (dtype : String) (data : List ℚ) (dims : List ℕ) :
    Except String TensorDescriptor :=
  if data.length = dims.foldl (fun a b => a * b) 1 then
    Except.ok ⟨dtype, dims, data⟩
  else
    Except.error ("ShapeMismatchError")

/-- `defineTensorInput`: wrap grayscale data as a float32 tensor. -/
def defineTensorInput (grayData : List ℚ) (dims : List ℕ) :
    Except String TensorDescriptor :=
  ortTensorNew ("float32") grayData dims

/-- The model's `semi` output tensor: dims `[1, C, H, W]` plus flat data. -/
structure SemiTensor where
  C : ℕ
  H : ℕ
  W : ℕ
  data : List ℚ
deriving DecidableEq, Repr

/-- Environment of one `main` run: the outcome of each external stage
(system-info query, session creation, image loading, inference) and the
wall-clock duration measured around each timed stage, plus the untimed
overhead (`imageToImageData`, bookkeeping) that no stage timer covers. -/
structure MainEnv where
  systemInfoRes : Except String Unit
  sessionRes : Except String Unit
  imageRes : Except String ImageData
  inferRes : Except String SemiTensor
  dSession : ℚ
  dImage : ℚ
  dGray : ℚ
  dTensor : ℚ
  dInfer : ℚ
  overhead : ℚ

/-- What `main` hands to its collaborators at the end of a run: the
`performance` entries in insertion order, the keypoints passed to
`drawKeypoints` (none when a failure skips drawing), and the `error`
field set by the `catch` block. -/
structure MainReport where
  perf : List (String × ℚ)
  keypoints : Option (List Keypoint)
  error : Option String
deriving DecidableEq, Repr

/-- Wall-clock end-to-end time of a run: all stage durations plus the
untimed overhead between them. -/
def wallClockTotal (env : MainEnv) : ℚ :=
  env.dSession + env.dImage + env.overhead + env.dGray + env.dTensor + env.dInfer

/-- The orchestrator `main`: runs the stages in order inside a
`try`/`catch`; each failing stage aborts the remaining stages, and the
`catch` block records the error message and still ships the
`performance` entries recorded so far.  `totalTime` is
`Object.values(perf).reduce((a,b) => a+b, 0)` over the five stage
entries present at that point.  The function is total: no failure
escapes it. -/
def mainModel (env : MainEnv) : MainReport :=
  match env.systemInfoRes with
  | Except.error e => ⟨[], none, some e⟩
  | Except.ok _ =>
    match env.sessionRes with
    | Except.error e => ⟨[], none, some e⟩
    | Except.ok _ =>
      let perf1 := [(("sessionCreation"), env.dSession)]
      match env.imageRes with
      | Except.error e => ⟨perf1, none, some e⟩
      | Except.ok img =>
        let perf2 := perf1 ++ [(("imageLoading"), env.dImage)]
        let gray := rgb2gray img
        let perf3 := perf2 ++ [(("grayscaleConversion"), env.dGray)]
        match defineTensorInput gray [1, 1, img.height, img.width] with
        | Except.error e => ⟨perf3, none, some e⟩
        | Except.ok _ =>
          let perf4 := perf3 ++ [(("tensorCreation"), env.dTensor)]
          match env.inferRes with
          | Except.error e => ⟨perf4, none, some e⟩
          | Except.ok semi =>
            let perf5 := perf4 ++ [(("inference"), env.dInfer)]
            let total := (perf5.map Prod.snd).foldl (fun a b => a + b) 0
            let perf6 := perf5 ++ [(("totalTime"), total)]
            ⟨perf6, some (drawKeypoints semi.C semi.H semi.W semi.data
                            img.width img.height), none⟩

/-- Synthetic `C=65, H=2, W=2` heatmap data: all zero except channel 9 at
cell `(1,1)` (flat index `9*4 + 1*2 + 1 = 39`), set to `0.9`. -/
def dataC2 : List ℚ := (List.replicate 260 0).set 39 (mkRat 9 10)

/-- Same heatmap but differing from `dataC2` only inside the dustbin
channel (flat indices `256..259`). -/
def dataC2near : List ℚ := dataC2.set 259 1

/-- `C=65, H=2, W=2` heatmap whose only nonzero score, channel 0 at cell
`(0,0)`, equals the threshold `0.015` exactly. -/
def dataAtThreshold : List ℚ := (List.replicate 260 0).set 0 confidenceThreshold

/-- `C=65, H=2, W=2` heatmap whose only nonzero score, channel 0 at cell
`(0,0)`, is `0.0151`, just above the threshold. -/
def dataAboveThreshold : List ℚ := (List.replicate 260 0).set 0 (mkRat 151 10000)

/-- An all-stages-succeed run environment with stage durations
`1, 2, 3, 4, 5` ms and `7` ms of untimed overhead. -/
def envAllOk : MainEnv :=
  ⟨Except.ok (), Except.ok (), Except.ok ⟨1, 1, [0, 0, 0, 0]⟩,
   Except.ok ⟨65, 1, 1, List.replicate 65 0⟩, 1, 2, 3, 4, 5, 7⟩

/-- A run environment whose inference stage fails after the earlier
stages succeeded. -/
def envInferFails : MainEnv :=
  ⟨Except.ok (), Except.ok (), Except.ok ⟨1, 1, [0, 0, 0, 0]⟩,
   Except.error ("InferenceExecutionError"), 1, 2, 3, 4, 5, 7⟩

lemma applyWrites_nil (init : List ℚ) : applyWrites [] init = init := rfl

lemma applyWrites_cons (w : ℕ × ℚ) (ws : List (ℕ × ℚ)) (init : List ℚ) :
    applyWrites (w :: ws) init = applyWrites ws (init.set w.1 w.2) := rfl

lemma applyWrites_length (ws : List (ℕ × ℚ)) (init : List ℚ) :
    (applyWrites ws init).length = init.length := by
  induction ws generalizing init with
  | nil => rfl
  | cons w ws ih =>
    rw [applyWrites_cons, ih, List.length_set]

lemma applyWrites_getD_of_forall_ne (ws : List (ℕ × ℚ)) (init : List ℚ)
    (i : ℕ) (d : ℚ) (h : ∀ w ∈ ws, w.1 ≠ i) :
    (applyWrites ws init).getD i d = init.getD i d := by
  induction ws generalizing init with
  | nil => rfl
  | cons w ws ih =>
    rw [applyWrites_cons, ih _ fun w' hw' => h w' (List.mem_cons_of_mem _ hw')]
    have hne : w.1 ≠ i := h w (List.mem_cons_self w ws)
    simp [List.getD_eq_getElem?_getD, List.getElem?_set, hne]

lemma applyWrites_getD_const (ws : List (ℕ × ℚ)) (init : List ℚ)
    (i : ℕ) (v d : ℚ) (h : ∀ w ∈ ws, w.1 = i → w.2 = v)
    (hinit : init.getD i d = v) (hlen : i < init.length) :
    (applyWrites ws init).getD i d = v := by
  induction ws generalizing init with
  | nil => exact hinit
  | cons w ws ih =>
    rw [applyWrites_cons]
    refine ih _ (fun w' hw' => h w' (List.mem_cons_of_mem _ hw')) ?_ ?_
    · by_cases hwi : w.1 = i
      · have hv : w.2 = v := h w (List.mem_cons_self w ws) hwi
        simp [List.getD_eq_getElem?_getD, List.getElem?_set, hwi, hlen, hv]
      · simpa [List.getD_eq_getElem?_getD, List.getElem?_set, hwi]
          using hinit
    · simpa [List.length_set] using hlen

lemma applyWrites_getD_of_mem (ws : List (ℕ × ℚ)) (init : List ℚ)
    (i : ℕ) (v d : ℚ) (hmem : (i, v) ∈ ws) (hlen : i < init.length)
    (huniq : ∀ w ∈ ws, w.1 = i → w.2 = v) :
    (applyWrites ws init).getD i d = v := by
  induction ws generalizing init with
  | nil => cases hmem
  | cons w ws ih =>
    rw [applyWrites_cons]
    by_cases hwi : w.1 = i
    · have hv : w.2 = v := huniq w (List.mem_cons_self w ws) hwi
      refine applyWrites_getD_const _ _ _ _ _
        (fun w' hw' => huniq w' (List.mem_cons_of_mem _ hw')) ?_ ?_
      · simp [List.getD_eq_getElem?_getD, List.getElem?_set, hwi, hlen, hv]
      · simpa [List.length_set] using hlen
    · have hmem' : (i, v) ∈ ws := by
        rcases List.mem_cons.mp hmem with h | h
        · exact absurd (by rw [← h]) hwi
        · exact h
      exact ih _ hmem' (by simpa [List.length_set] using hlen)
        (fun w' hw' => huniq w' (List.mem_cons_of_mem _ hw'))

lemma mem_loopTriples {Cm1 H W c y x : ℕ} :
    (c, y, x) ∈ loopTriples Cm1 H W ↔ c < Cm1 ∧ y < H ∧ x < W := by
  simp only [loopTriples, List.mem_flatMap, List.mem_map, List.mem_range,
    Prod.mk.injEq]
  aesop

lemma fullMapIndex_decomp (W c y x : ℕ) :
    fullMapIndex (cellSize * W) c y x
      = cellSize * ((y * cellSize + c / cellSize) * W + x) + c % cellSize := by
  simp only [fullMapIndex, cellSize]
  ring

lemma fullMapIndex_inj {W c y x c' y' x' : ℕ}
    (hc : c < cellSize * cellSize) (hc' : c' < cellSize * cellSize)
    (hx : x < W) (hx' : x' < W)
    (h : fullMapIndex (cellSize * W) c y x = fullMapIndex (cellSize * W) c' y' x') :
    c = c' ∧ y = y' ∧ x = x' := by
  rw [fullMapIndex_decomp, fullMapIndex_decomp] at h
  simp only [cellSize] at h hc hc'
  have hmod : c % 8 = c' % 8 := by omega
  have hA : (y * 8 + c / 8) * W + x = (y' * 8 + c' / 8) * W + x' := by omega
  have hxx : x = x' := by
    have h1 : ((y * 8 + c / 8) * W + x) % W = x % W := Nat.mul_add_mod' _ _ _
    have h2 : ((y' * 8 + c' / 8) * W + x') % W = x' % W := Nat.mul_add_mod' _ _ _
    rw [hA] at h1
    rw [h2, Nat.mod_eq_of_lt hx, Nat.mod_eq_of_lt hx'] at h1
    exact h1.symm
  subst hxx
  have hW : 0 < W := by omega
  have hB : y * 8 + c / 8 = y' * 8 + c' / 8 :=
    Nat.eq_of_mul_eq_mul_right hW (by omega)
  refine ⟨by omega, by omega, rfl⟩

lemma fullMapIndex_lt {W H c y x : ℕ}
    (hc : c < cellSize * cellSize) (hx : x < W) (hy : y < H) :
    fullMapIndex (cellSize * W) c y x < cellSize * W * (cellSize * H) := by
  have h1 : y * cellSize + c / cellSize + 1 ≤ cellSize * H := by
    have : c / cellSize < cellSize := Nat.div_lt_of_lt_mul (by omega)
    calc y * cellSize + c / cellSize + 1
        ≤ (H - 1) * cellSize + c / cellSize + 1 :=
          by have := Nat.mul_le_mul_right cellSize (Nat.le_sub_one_of_lt hy); omega
      _ ≤ (H - 1) * cellSize + cellSize := by omega
      _ = ((H - 1) + 1) * cellSize := by ring
      _ ≤ H * cellSize := Nat.mul_le_mul_right _ (by omega)
      _ = cellSize * H := Nat.mul_comm _ _
  have h2 : x * cellSize + c % cellSize < cellSize * W := by
    have hm : c % cellSize < cellSize := Nat.mod_lt _ (by simp [cellSize])
    calc x * cellSize + c % cellSize
        < x * cellSize + cellSize := by omega
      _ = (x + 1) * cellSize := by ring
      _ ≤ W * cellSize := Nat.mul_le_mul_right _ (by omega)
      _ = cellSize * W := Nat.mul_comm _ _
  calc fullMapIndex (cellSize * W) c y x
      = (y * cellSize + c / cellSize) * (cellSize * W)
          + (x * cellSize + c % cellSize) := rfl
    _ < (y * cellSize + c / cellSize) * (cellSize * W) + cellSize * W := by omega
    _ = (y * cellSize + c / cellSize + 1) * (cellSize * W) := by ring
    _ ≤ cellSize * H * (cellSize * W) := Nat.mul_le_mul_right _ h1
    _ = cellSize * W * (cellSize * H) := by ring

lemma heatmapIndex_lt {C H W c y x : ℕ}
    (hc : c < C - 1) (hy : y < H) (hx : x < W) :
    heatmapIndex H W c y x < (C - 1) * H * W := by
  have h1 : y * W + x < H * W := by
    calc y * W + x < y * W + W := by omega
      _ = (y + 1) * W := by ring
      _ ≤ H * W := Nat.mul_le_mul_right _ (by omega)
  calc heatmapIndex H W c y x
      = c * (H * W) + (y * W + x) := by simp [heatmapIndex]; ring
    _ < c * (H * W) + H * W := by omega
    _ = (c + 1) * (H * W) := by ring
    _ ≤ (C - 1) * (H * W) := Nat.mul_le_mul_right _ (by omega)
    _ = (C - 1) * H * W := by ring

/-- C1: for a heatmap tensor of shape `[1, C, H, W]` (with at most
`cellSize² + 1 = 65` channels, as the data model prescribes) decoded onto
the matching `W*cellSize × H*cellSize` surface, every channel
`c ∈ [0, C-2]` and coarse cell `(x, y)` deposits the score stored at flat
heatmap index `c*H*W + y*W + x` at full-resolution coordinate
`(x*cellSize + c % cellSize, y*cellSize + c / cellSize)`; and the last
channel `C-1` is never read: the reconstructed surface depends only on
the data below flat index `(C-1)*H*W`. -/
theorem drawKeypoints_depth_to_space
    (C H W : ℕ) (data : List ℚ) (imgW imgH c y x : ℕ)
    (hC : C ≤ cellSize * cellSize + 1) (hc : c + 1 < C)
    (hy : y < H) (hx : x < W)
    (hW : imgW = cellSize * W) (hH : imgH = cellSize * H) :
    (buildFullHeatmap C H W data imgW imgH).getD (fullMapIndex imgW c y x) 0
      = data.getD (heatmapIndex H W c y x) 0
    ∧ ∀ data' : List ℚ,
        (∀ i, i < (C - 1) * H * W → data.getD i 0 = data'.getD i 0) →
        buildFullHeatmap C H W data imgW imgH
          = buildFullHeatmap C H W data' imgW imgH := by
  subst hW hH
  constructor
  · apply applyWrites_getD_of_mem
    · simp only [heatmapWrites, List.mem_map]
      exact ⟨(c, y, x), mem_loopTriples.mpr ⟨by omega, hy, hx⟩, rfl⟩
    · rw [List.length_replicate]
      refine fullMapIndex_lt ?_ hx hy
      simp only [cellSize] at hC ⊢
      omega
    · intro w hw h1
      simp only [heatmapWrites, List.mem_map] at hw
      obtain ⟨⟨c', y', x'⟩, ht, rfl⟩ := hw
      obtain ⟨hc', hy', hx'⟩ := mem_loopTriples.mp ht
      obtain ⟨e1, e2, e3⟩ :=
        fullMapIndex_inj
          (by simp only [cellSize] at hC ⊢; omega)
          (by simp only [cellSize] at hC ⊢; omega) hx' hx h1
      subst e1; subst e2; subst e3
      rfl
  · intro data' hagree
    unfold buildFullHeatmap heatmapWrites
    congr 1
    apply List.map_congr_left
    rintro ⟨c', y', x'⟩ ht
    obtain ⟨hc', hy', hx'⟩ := mem_loopTriples.mp ht
    have hidx := heatmapIndex_lt hc' hy' hx'
    simp only [hagree _ hidx]

lemma mem_drawKeypoints {C H W : ℕ} {data : List ℚ} {imgW imgH : ℕ}
    {kp : Keypoint} :
    kp ∈ drawKeypoints C H W data imgW imgH ↔
      ∃ i, i < imgW * imgH ∧
        confidenceThreshold < (buildFullHeatmap C H W data imgW imgH).getD i 0 ∧
        kp = ⟨i % imgW, i / imgW,
              (buildFullHeatmap C H W data imgW imgH).getD i 0⟩ := by
  simp only [drawKeypoints, List.mem_filterMap, List.mem_range]
  constructor
  · rintro ⟨i, hi, hsome⟩
    by_cases hth :
        confidenceThreshold < (buildFullHeatmap C H W data imgW imgH).getD i 0
    · rw [if_pos hth] at hsome
      exact ⟨i, hi, hth, (Option.some.inj hsome).symm⟩
    · rw [if_neg hth] at hsome
      cases hsome
  · rintro ⟨i, hi, hth, rfl⟩
    exact ⟨i, hi, by rw [if_pos hth]⟩

set_option maxRecDepth 1000000 in
/-- C2: decoding the synthetic `C=65, H=2, W=2` heatmap (single `0.9`
score on channel 9 at cell `(1,1)`) onto a 16×16 image with the built-in
threshold `0.015` yields exactly one keypoint, at `(9, 9)`, with
confidence `0.9`. -/
theorem drawKeypoints_single_point_roundtrip :
    drawKeypoints 65 2 2 dataC2 16 16 = [⟨9, 9, mkRat 9 10⟩] := by
  decide

/-- C4: the keypoint list emitted by the decoder is strictly ascending in
the flattened index `y * width + x` (row-major scan order); the decoder
is a pure function, so the list is identical on every run with the same
input. -/
theorem drawKeypoints_sorted_by_flat_index
    (C H W : ℕ) (data : List ℚ) (imgW imgH : ℕ) :
    List.Pairwise (fun a b : Keypoint => a.y * imgW + a.x < b.y * imgW + b.x)
      (drawKeypoints C H W data imgW imgH) := by
  unfold drawKeypoints
  rw [List.pairwise_filterMap]
  refine List.Pairwise.imp ?_ (List.pairwise_lt_range (imgW * imgH))
  intro i j hij kp hkp kp' hkp'
  rw [Option.mem_def] at hkp hkp'
  split at hkp
  case isFalse => cases hkp
  case isTrue h =>
    split at hkp'
    case isFalse => cases hkp'
    case isTrue h' =>
      obtain rfl := (Option.some.inj hkp).symm
      obtain rfl := (Option.some.inj hkp').symm
      simpa only [Nat.div_add_mod'] using hij

set_option maxRecDepth 1000000 in
/-- C1 witness: the depth-to-space assignment at channel 9, cell `(1,1)`
of the synthetic heatmap, together with insensitivity to a change
confined to the dustbin channel. -/
theorem drawKeypoints_depth_to_space_witness :
    (buildFullHeatmap 65 2 2 dataC2 16 16).getD (fullMapIndex 16 9 1 1) 0
      = dataC2.getD (heatmapIndex 2 2 9 1 1) 0
    ∧ buildFullHeatmap 65 2 2 dataC2 16 16
      = buildFullHeatmap 65 2 2 dataC2near 16 16 := by
  have h := drawKeypoints_depth_to_space 65 2 2 dataC2 16 16 9 1 1
    (by decide) (by decide) (by decide) (by decide) (by decide) (by decide)
  exact ⟨h.1, h.2 dataC2near (by decide)⟩

set_option maxRecDepth 1000000 in
/-- C3: a coordinate `(x, y)` of the target surface appears in the
decoder output iff its reconstructed confidence strictly exceeds the
threshold `0.015`; concretely, a lone score of exactly `0.015` at
channel 0, cell `(0,0)` of a `65×2×2` heatmap yields no keypoint, while
`0.0151` yields exactly the keypoint `(0, 0)`. -/
theorem drawKeypoints_threshold_iff
    (C H W : ℕ) (data : List ℚ) (imgW imgH x y : ℕ)
    (hx : x < imgW) (hy : y < imgH) :
    ((∃ conf, (⟨x, y, conf⟩ : Keypoint) ∈ drawKeypoints C H W data imgW imgH) ↔
      confidenceThreshold
        < (buildFullHeatmap C H W data imgW imgH).getD (y * imgW + x) 0)
    ∧ drawKeypoints 65 2 2 dataAtThreshold 16 16 = []
    ∧ drawKeypoints 65 2 2 dataAboveThreshold 16 16
        = [⟨0, 0, mkRat 151 10000⟩] := by
  refine ⟨?_, by decide, by decide⟩
  have h1 : (y * imgW + x) % imgW = x % imgW := Nat.mul_add_mod' y imgW x
  have h2 : (y * imgW + x) / imgW = y := by
    rw [Nat.add_comm, Nat.add_mul_div_right _ _ (by omega : 0 < imgW),
      Nat.div_eq_of_lt hx]
    omega
  rw [Nat.mod_eq_of_lt hx] at h1
  constructor
  · rintro ⟨conf, hmem⟩
    obtain ⟨i, hi, hth, heq⟩ := mem_drawKeypoints.mp hmem
    simp only [Keypoint.mk.injEq] at heq
    obtain ⟨ex, ey, _⟩ := heq
    have hixy : i = y * imgW + x := by
      rw [ex, ey, Nat.div_add_mod']
    rw [← hixy]
    exact hth
  · intro hth
    refine ⟨(buildFullHeatmap C H W data imgW imgH).getD (y * imgW + x) 0,
      mem_drawKeypoints.mpr ⟨y * imgW + x, ?_, hth, ?_⟩⟩
    · calc y * imgW + x < y * imgW + imgW := by omega
        _ = (y + 1) * imgW := by ring
        _ ≤ imgH * imgW := Nat.mul_le_mul_right _ (by omega)
        _ = imgW * imgH := Nat.mul_comm _ _
    · rw [h1, h2]

set_option maxRecDepth 1000000 in
/-- C5 counterexample: a `65×2×2` heatmap implies a 16×16 surface, yet
decoding it onto an 8×8 target raises no error at all: the decoder
returns an ordinary (empty) keypoint list, silently dropping the `0.9`
score — which is strictly above the threshold — because its
full-resolution index `9*16+9` falls outside the 8×8 buffer. -/
theorem drawKeypoints_shape_mismatch_cex :
    confidenceThreshold < dataC2.getD (heatmapIndex 2 2 9 1 1) 0
    ∧ drawKeypoints 65 2 2 dataC2 8 8 = [] := by
  decide

/-- C5 amended: the decoder performs no shape validation and never
fails; for any heatmap shape, including ones whose implied surface
`cellSize*W × cellSize*H` differs from the target `width × height`, it
returns an ordinary keypoint list whose entries are confined to the
target surface — out-of-range depth-to-space stores are silently
dropped rather than reported. -/
theorem drawKeypoints_silently_tolerates_mismatch
    (C H W : ℕ) (data : List ℚ) (imgW imgH : ℕ)
    (_hmis : imgW * imgH ≠ cellSize * W * (cellSize * H)) :
    (buildFullHeatmap C H W data imgW imgH).length = imgW * imgH
    ∧ ∀ kp ∈ drawKeypoints C H W data imgW imgH,
        kp.y * imgW + kp.x < imgW * imgH := by
  constructor
  · rw [buildFullHeatmap, applyWrites_length, List.length_replicate]
  · intro kp hkp
    obtain ⟨i, hi, _, rfl⟩ := mem_drawKeypoints.mp hkp
    simpa only [Nat.div_add_mod'] using hi

/-- C5 witness: the no-validation behaviour at the concrete mismatched
shape of the counterexample. -/
theorem drawKeypoints_silently_tolerates_mismatch_witness :
    (buildFullHeatmap 65 2 2 dataC2 8 8).length = 8 * 8 :=
  (drawKeypoints_silently_tolerates_mismatch 65 2 2 dataC2 8 8 (by decide)).1

set_option maxRecDepth 1000000 in
/-- C3 witness: the threshold characterisation instantiated at
coordinate `(0,0)` of the `0.0151` heatmap, plus both concrete boundary
cases. -/
theorem drawKeypoints_threshold_iff_witness :
    ((∃ conf, (⟨0, 0, conf⟩ : Keypoint)
        ∈ drawKeypoints 65 2 2 dataAboveThreshold 16 16) ↔
      confidenceThreshold
        < (buildFullHeatmap 65 2 2 dataAboveThreshold 16 16).getD (0 * 16 + 0) 0)
    ∧ drawKeypoints 65 2 2 dataAtThreshold 16 16 = []
    ∧ drawKeypoints 65 2 2 dataAboveThreshold 16 16
        = [⟨0, 0, mkRat 151 10000⟩] :=
  drawKeypoints_threshold_iff 65 2 2 dataAboveThreshold 16 16 0 0
    (by norm_num) (by norm_num)

lemma defineTensorInput_gray_ok (img : ImageData) :
    defineTensorInput (rgb2gray img) [1, 1, img.height, img.width]
      = Except.ok ⟨("float32"), [1, 1, img.height, img.width], rgb2gray img⟩ := by
  have hlen : (rgb2gray img).length
      = [1, 1, img.height, img.width].foldl (fun a b => a * b) 1 := by
    simp only [rgb2gray, List.length_map, List.length_range,
      List.foldl_cons, List.foldl_nil, one_mul]
    ring
  rw [defineTensorInput, ortTensorNew, if_pos hlen]

/-- C6: the Tensor Assembler succeeds exactly when the buffer length
equals `height * width`: any mismatched pair fails with
`ShapeMismatchError`, and a matching pair yields a float32 tensor
descriptor with dims `[1, 1, height, width]`. -/
theorem defineTensorInput_shape_check (grayData : List ℚ) (h w : ℕ)
    (_hh : 0 < h) (_hw : 0 < w) :
    (grayData.length ≠ h * w →
      defineTensorInput grayData [1, 1, h, w]
        = Except.error ("ShapeMismatchError"))
    ∧ (grayData.length = h * w →
      defineTensorInput grayData [1, 1, h, w]
        = Except.ok ⟨("float32"), [1, 1, h, w], grayData⟩) := by
  have hfold : [1, 1, h, w].foldl (fun a b => a * b) 1 = h * w := by
    simp [List.foldl_cons, List.foldl_nil]
  constructor
  · intro hne
    rw [defineTensorInput, ortTensorNew, if_neg (by rw [hfold]; exact hne)]
  · intro he
    rw [defineTensorInput, ortTensorNew, if_pos (by rw [hfold]; exact he)]

/-- C6 witness: a 100-element buffer with `height=10, width=11` fails,
and with `height=10, width=10` succeeds. -/
theorem defineTensorInput_shape_check_witness :
    defineTensorInput (List.replicate 100 (0 : ℚ)) [1, 1, 10, 11]
      = Except.error ("ShapeMismatchError")
    ∧ defineTensorInput (List.replicate 100 (0 : ℚ)) [1, 1, 10, 10]
      = Except.ok ⟨("float32"), [1, 1, 10, 10], List.replicate 100 (0 : ℚ)⟩ :=
  ⟨(defineTensorInput_shape_check (List.replicate 100 0) 10 11
      (by norm_num) (by norm_num)).1 (by simp),
   (defineTensorInput_shape_check (List.replicate 100 0) 10 10
      (by norm_num) (by norm_num)).2 (by simp)⟩

/-- C7: for byte-valued channels every grayscale output lies in
`[0, 1]`; an all-black image yields an all-zero intensity buffer and an
all-white image an all-one buffer (exact in this rational model of
float arithmetic). -/
theorem rgb2gray_range_and_extremes (img : ImageData) :
    ((∀ v ∈ img.data, v ≤ 255) →
      ∀ g ∈ rgb2gray img, 0 ≤ g ∧ g ≤ 1)
    ∧ ((∀ p, p < img.width * img.height →
          img.data.getD (4 * p) 0 = 0 ∧ img.data.getD (4 * p + 1) 0 = 0
            ∧ img.data.getD (4 * p + 2) 0 = 0) →
      ∀ g ∈ rgb2gray img, g = 0)
    ∧ ((∀ p, p < img.width * img.height →
          img.data.getD (4 * p) 0 = 255 ∧ img.data.getD (4 * p + 1) 0 = 255
            ∧ img.data.getD (4 * p + 2) 0 = 255) →
      ∀ g ∈ rgb2gray img, g = 1) := by
  have hbound : (∀ v ∈ img.data, v ≤ 255) → ∀ i : ℕ, img.data.getD i 0 ≤ 255 := by
    intro hb i
    rcases Nat.lt_or_ge i img.data.length with hi | hi
    · rw [List.getD_eq_getElem?_getD, List.getElem?_eq_getElem hi,
        Option.getD_some]
      exact hb _ (List.getElem_mem hi)
    · rw [List.getD_eq_getElem?_getD, List.getElem?_eq_none hi, Option.getD_none]
      omega
  refine ⟨?_, ?_, ?_⟩
  · intro hb g hg
    simp only [rgb2gray, List.mem_map, List.mem_range] at hg
    obtain ⟨p, _, rfl⟩ := hg
    have r1 : ((img.data.getD (4 * p) 0 : ℕ) : ℚ) ≤ 255 := by
      exact_mod_cast hbound hb (4 * p)
    have r2 : ((img.data.getD (4 * p + 1) 0 : ℕ) : ℚ) ≤ 255 := by
      exact_mod_cast hbound hb (4 * p + 1)
    have r3 : ((img.data.getD (4 * p + 2) 0 : ℕ) : ℚ) ≤ 255 := by
      exact_mod_cast hbound hb (4 * p + 2)
    have n1 : (0 : ℚ) ≤ ((img.data.getD (4 * p) 0 : ℕ) : ℚ) := Nat.cast_nonneg _
    have n2 : (0 : ℚ) ≤ ((img.data.getD (4 * p + 1) 0 : ℕ) : ℚ) := Nat.cast_nonneg _
    have n3 : (0 : ℚ) ≤ ((img.data.getD (4 * p + 2) 0 : ℕ) : ℚ) := Nat.cast_nonneg _
    constructor
    · apply div_nonneg _ (by norm_num)
      nlinarith
    · rw [div_le_one (by norm_num)]
      nlinarith
  · intro hb g hg
    simp only [rgb2gray, List.mem_map, List.mem_range] at hg
    obtain ⟨p, hp, rfl⟩ := hg
    obtain ⟨e1, e2, e3⟩ := hb p hp
    rw [e1, e2, e3]
    norm_num
  · intro hb g hg
    simp only [rgb2gray, List.mem_map, List.mem_range] at hg
    obtain ⟨p, hp, rfl⟩ := hg
    obtain ⟨e1, e2, e3⟩ := hb p hp
    rw [e1, e2, e3]
    norm_num

/-- C7 witness: the range bound on a sample pixel, the all-black image
yielding 0 and the all-white image yielding 1, each on a 1×1 image. -/
theorem rgb2gray_range_and_extremes_witness :
    (0 ≤ (rgb2gray ⟨1, 1, [10, 20, 30, 40]⟩).getD 0 0
      ∧ (rgb2gray ⟨1, 1, [10, 20, 30, 40]⟩).getD 0 0 ≤ 1)
    ∧ (rgb2gray ⟨1, 1, [0, 0, 0, 0]⟩).getD 0 0 = 0
    ∧ (rgb2gray ⟨1, 1, [255, 255, 255, 255]⟩).getD 0 0 = 1 := by
  refine ⟨(rgb2gray_range_and_extremes ⟨1, 1, [10, 20, 30, 40]⟩).1
            (by decide) _ ?_,
          (rgb2gray_range_and_extremes ⟨1, 1, [0, 0, 0, 0]⟩).2.1
            (by decide) _ ?_,
          (rgb2gray_range_and_extremes ⟨1, 1, [255, 255, 255, 255]⟩).2.2
            (by decide) _ ?_⟩
  all_goals norm_num [rgb2gray, List.range_succ, List.range_zero]

/-- C10: the grayscale conversion is independent of the alpha channel:
two same-sized images agreeing on R, G and B at every pixel produce
identical intensity buffers. -/
theorem rgb2gray_alpha_independent (img1 img2 : ImageData)
    (hw : img1.width = img2.width) (hh : img1.height = img2.height)
    (hrgb : ∀ p, p < img1.width * img1.height →
      img1.data.getD (4 * p) 0 = img2.data.getD (4 * p) 0
      ∧ img1.data.getD (4 * p + 1) 0 = img2.data.getD (4 * p + 1) 0
      ∧ img1.data.getD (4 * p + 2) 0 = img2.data.getD (4 * p + 2) 0) :
    rgb2gray img1 = rgb2gray img2 := by
  unfold rgb2gray
  rw [hw, hh]
  apply List.map_congr_left
  intro p hp
  rw [List.mem_range, ← hw, ← hh] at hp
  obtain ⟨e1, e2, e3⟩ := hrgb p hp
  rw [e1, e2, e3]

/-- C10 witness: two 1×1 images that differ only in alpha. -/
theorem rgb2gray_alpha_independent_witness :
    rgb2gray ⟨1, 1, [5, 6, 7, 0]⟩ = rgb2gray ⟨1, 1, [5, 6, 7, 255]⟩ :=
  rgb2gray_alpha_independent ⟨1, 1, [5, 6, 7, 0]⟩ ⟨1, 1, [5, 6, 7, 255]⟩
    rfl rfl (by decide)

/-- C8: in a run where every stage succeeds, the `performance` record
holds the five stage entries in insertion order followed by `totalTime`,
which equals the sum of those five stage durations; whenever any untimed
overhead elapsed, that sum differs from the wall-clock end-to-end time. -/
theorem mainModel_totalTime_sum (env : MainEnv) (img : ImageData)
    (semi : SemiTensor)
    (hsys : env.systemInfoRes = Except.ok ())
    (hsess : env.sessionRes = Except.ok ())
    (himg : env.imageRes = Except.ok img)
    (hinf : env.inferRes = Except.ok semi) :
    (mainModel env).perf =
      [(("sessionCreation"), env.dSession), (("imageLoading"), env.dImage),
       (("grayscaleConversion"), env.dGray), (("tensorCreation"), env.dTensor),
       (("inference"), env.dInfer),
       (("totalTime"),
        env.dSession + env.dImage + env.dGray + env.dTensor + env.dInfer)]
    ∧ (0 < env.overhead →
        env.dSession + env.dImage + env.dGray + env.dTensor + env.dInfer
          ≠ wallClockTotal env) := by
  constructor
  · simp only [mainModel, hsys, hsess, himg, defineTensorInput_gray_ok, hinf,
      List.singleton_append, List.cons_append, List.nil_append,
      List.map_cons, List.map_nil, List.foldl_cons, List.foldl_nil]
    norm_num
  · intro hov heq
    rw [wallClockTotal] at heq
    linarith

/-- C8 witness: an all-ok run with stage durations 1..5 and overhead 7:
`totalTime` is `15`, the wall clock is `22`. -/
theorem mainModel_totalTime_sum_witness :
    (mainModel envAllOk).perf =
      [(("sessionCreation"), (1 : ℚ)), (("imageLoading"), 2),
       (("grayscaleConversion"), 3), (("tensorCreation"), 4),
       (("inference"), 5), (("totalTime"), 1 + 2 + 3 + 4 + 5)]
    ∧ (1 : ℚ) + 2 + 3 + 4 + 5 ≠ wallClockTotal envAllOk := by
  have h := mainModel_totalTime_sum envAllOk ⟨1, 1, [0, 0, 0, 0]⟩
    ⟨65, 1, 1, List.replicate 65 0⟩ rfl rfl rfl rfl
  exact ⟨h.1, h.2 (by norm_num [envAllOk])⟩

/-- C9: when the inference stage fails after the earlier stages
succeeded, the report carries the failure message in its error field,
still contains the performance entries recorded before the failure
(session creation, image loading, grayscale conversion, tensor
creation), and no keypoints; more generally, whenever any stage fails,
`main` returns a report (it never rethrows) with a set error field and
no keypoints. -/
theorem mainModel_failure_contained (env : MainEnv) (img : ImageData)
    (msg : String)
    (hsys : env.systemInfoRes = Except.ok ())
    (hsess : env.sessionRes = Except.ok ())
    (himg : env.imageRes = Except.ok img)
    (hinf : env.inferRes = Except.error msg) :
    (mainModel env).error = some msg
    ∧ (mainModel env).perf =
        [(("sessionCreation"), env.dSession), (("imageLoading"), env.dImage),
         (("grayscaleConversion"), env.dGray), (("tensorCreation"), env.dTensor)]
    ∧ (mainModel env).keypoints = none
    ∧ ∀ env' : MainEnv,
        ((∃ e, env'.systemInfoRes = Except.error e)
          ∨ (∃ e, env'.sessionRes = Except.error e)
          ∨ (∃ e, env'.imageRes = Except.error e)
          ∨ (∃ e, env'.inferRes = Except.error e)) →
        ((mainModel env').error).isSome = true
          ∧ (mainModel env').keypoints = none := by
  refine ⟨?_, ?_, ?_, ?_⟩
  · simp only [mainModel, hsys, hsess, himg, defineTensorInput_gray_ok, hinf]
  · simp only [mainModel, hsys, hsess, himg, defineTensorInput_gray_ok, hinf,
      List.singleton_append, List.cons_append, List.nil_append]
  · simp only [mainModel, hsys, hsess, himg, defineTensorInput_gray_ok, hinf]
  · intro env' hfail
    obtain ⟨sys, sess, imgR, infR, d1, d2, d3, d4, d5, ov⟩ := env'
    rcases sys with e | u
    · simp [mainModel]
    · rcases sess with e | u2
      · simp [mainModel]
      · rcases imgR with e | img'
        · simp [mainModel]
        · rcases infR with e | semi
          · simp [mainModel, defineTensorInput_gray_ok]
          · simp at hfail

/-- C9 witness: the inference-failure run with durations 1..4 recorded. -/
theorem mainModel_failure_contained_witness :
    (mainModel envInferFails).error = some ("InferenceExecutionError")
    ∧ (mainModel envInferFails).perf =
        [(("sessionCreation"), (1 : ℚ)), (("imageLoading"), 2),
         (("grayscaleConversion"), 3), (("tensorCreation"), 4)]
    ∧ (mainModel envInferFails).keypoints = none := by
  have h := mainModel_failure_contained envInferFails ⟨1, 1, [0, 0, 0, 0]⟩
    ("InferenceExecutionError") rfl rfl rfl rfl
  exact ⟨h.1, h.2.1, h.2.2.1⟩
